import Mathlib

/-!
# TimerQueue: a shallow embedding of `timerqueue.h` / `timerqueue.cc`

The C++ class `utils::TimerQueue` keeps a `std::set<TimerHandle, TimerHandleComp>`
of pending timers and serves it from one dispatcher thread (`StartRoutine`,
`ThreadLoop`).  The embedding below is sequential and explicit about the
environment:

* time points and durations are integers (nanosecond counts of the steady
  clock); clock readings and the time points callers pass are taken as given,
  and the one sum the code computes, `TimerClock::now() + dtn`, is a signed
  64-bit sum that wraps in two's complement;
* a `TimerHandle` (`std::shared_ptr<ITimer>`) is an `Option ITimer`, `none`
  being `nullptr`; the record carries the address of the object it points to;
* the `std::set` is a list kept in comparator order, with the standard's
  semantics for `find`, `emplace`, `begin`, `erase(iterator)` and `clear`;
* every reading of `TimerClock::now()` is an explicit argument, and the clock
  of a world only moves forward;
* reference counts are computed from the copies of a handle that exist: those
  in `tq_`, those callers hold, and the dispatcher's local `hdl`;
* what other threads do while the dispatcher is blocked in `wait`/`wait_until`
  (the mutex is released there) is an explicit list of operations; each
  operation, and each locked section of the dispatcher, is atomic;
* `wait_until` reports `timeout` exactly when the clock has reached the
  absolute time at the moment the wait returns, whatever woke the thread;
* a callback is known by a token and by whether its invocation throws; what a
  callback does to the queue is an operation like those of any other thread.
-/

namespace utils

/-! ## Data model -/

/-- Time point of `std::chrono::steady_clock`, as a signed nanosecond count. -/
abbrev TimePoint := Int

/-- Duration `std::chrono::nanoseconds` (a signed count). -/
abbrev TimerNs := Int

/-- Timer object (`ITimer` and its subclasses): the heap address that gives it
its identity, `TimerPoint()`, `Safe()`, and a token naming the callback that
`TimerCallback()` runs. -/
structure ITimer where
  addr : Nat
  tp : TimePoint
  safe : Bool
  func : Nat
deriving DecidableEq, Repr

/-- Handle `std::shared_ptr<ITimer>`; `none` is the null pointer. -/
abbrev TimerHandle := Option ITimer

/-- Value a signed 64-bit count holds when the exact result of an addition is
`x`: `x` itself when it lies in `[-2^63, 2^63)`, and `x` wrapped into that range
otherwise. -/
def wrap64 (x : Int) : Int :=
  (x + 9223372036854775808) % 18446744073709551616 - 9223372036854775808

/-- Constructor `Timer::Timer(TimerNs dtn, TimerFunc func, bool safe)`: the
deadline is `TimerClock::now() + dtn`, a sum of two signed 64-bit counts. -/
def Timer_dtn (addr : Nat) (now : TimePoint) (dtn : TimerNs) (func : Nat) (safe : Bool) : ITimer :=
  { addr := addr, tp := wrap64 (now + dtn), safe := safe, func := func }

/-- Constructor `Timer::Timer(TimePoint &tp, TimerFunc func, bool safe)`. -/
def Timer_tp (addr : Nat) (tp : TimePoint) (func : Nat) (safe : Bool) : ITimer :=
  { addr := addr, tp := tp, safe := safe, func := func }

/-- Comparator `TimerHandleComp::operator()`: both handles non-null and the left
time point strictly smaller; `false` as soon as one side is null. -/
def TimerHandleComp (lhs rhs : TimerHandle) : Bool :=
  match lhs, rhs with
  | some l, some r => decide (l.tp < r.tp)
  | _, _ => false

/-! ## The ordered set `std::set<TimerHandle, TimerHandleComp>` -/

/-- Key equivalence of an ordered container: neither key is less than the other. -/
def set_equiv (a b : TimerHandle) : Bool :=
  !TimerHandleComp a b && !TimerHandleComp b a

/-- Member function `std::set::find`: the element equivalent to the key, if any
(`none` stands for `end()`). -/
def set_find (tq : List TimerHandle) (k : TimerHandle) : Option TimerHandle :=
  tq.find? (fun x => set_equiv x k)

/-- Position of a new key in comparator order: before the first element it is
less than. -/
def set_insert_pos (k : TimerHandle) : List TimerHandle → List TimerHandle
  | [] => [k]
  | x :: xs => if TimerHandleComp k x then k :: x :: xs else x :: set_insert_pos k xs

/-- Member function `std::set::emplace`: inserts the key unless an equivalent
element is present, in which case the set is left as it is. -/
def set_emplace (tq : List TimerHandle) (k : TimerHandle) : List TimerHandle :=
  if (set_find tq k).isSome then tq else set_insert_pos k tq

/-- Data members of `TimerQueue` that the functions below read and write:
`tq_` and `quit_`. -/
structure TimerQueue where
  tq_ : List TimerHandle
  quit_ : Bool
deriving DecidableEq, Repr

/-! ## Registration API -/

/-- Overload `bool TimerQueue::AddTimer(const TimerHandle &handle)`; `now` is the
value `TimerClock::now()` returns in the second check. -/
def AddTimer_handle (q : TimerQueue) (now : TimePoint) (handle : TimerHandle) :
    Bool × TimerQueue :=
  match handle with
  | none => (false, q)
  | some t =>
    if t.tp < now then (false, q)
    else if (set_find q.tq_ handle).isSome then (false, q)
    else (true, { q with tq_ := set_emplace q.tq_ handle })

/-- Overload `TimerHandle TimerQueue::AddTimer(TimePoint &tp, TimerFunc func, bool safe)`;
`addr` is the address of the object `std::make_shared<Timer>` creates. -/
def AddTimer_tp (q : TimerQueue) (now : TimePoint) (addr : Nat) (tp : TimePoint)
    (func : Nat) (safe : Bool) : TimerHandle × TimerQueue :=
  if tp < now then (none, q)
  else
    let handle : TimerHandle := some (Timer_tp addr tp func safe)
    (handle, { q with tq_ := set_emplace q.tq_ handle })

/-- Overload `TimerHandle TimerQueue::AddTimer(TimerNs dtn, TimerFunc func, bool safe)`;
`now` is the clock value read by the `Timer` constructor. -/
def AddTimer_dtn (q : TimerQueue) (now : TimePoint) (addr : Nat) (dtn : TimerNs)
    (func : Nat) (safe : Bool) : TimerHandle × TimerQueue :=
  let handle : TimerHandle := some (Timer_dtn addr now dtn func safe)
  (handle, { q with tq_ := set_emplace q.tq_ handle })

/-! ## The world around the queue -/

/-- Observable events, kept in a log (newest first). -/
inductive Event where
  | admitted (t : ITimer) (clock : TimePoint)
  | removed (t : ITimer) (clock : TimePoint)
  | invoked (t : ITimer)
deriving DecidableEq, Repr

/-- The queue together with its environment: the steady clock, the handles
callers currently hold (one entry per `shared_ptr` copy), the next fresh heap
address, and the event log. -/
structure World where
  now : TimePoint
  q : TimerQueue
  held : List ITimer
  next : Nat
  log : List Event
deriving DecidableEq, Repr

/-- What a thread other than the dispatcher can do. -/
inductive Op where
  /-- the steady clock advances -/
  | tick (d : Nat)
  /-- a caller creates its own timer object (as `std::make_shared<SampleTimer>`)
  and holds the handle -/
  | construct (tp : TimePoint) (safe : Bool) (func : Nat)
  /-- `AddTimer(handle)` on a handle the caller holds (on a handle nobody
  holds the operation cannot be issued and leaves the world as it is) -/
  | addHandle (t : ITimer)
  /-- `AddTimer(handle)` on a null handle -/
  | addNull
  /-- `AddTimer(tp, func, safe)`; `keep` tells whether the caller stores the
  returned handle or lets it go at once -/
  | addDeadline (tp : TimePoint) (func : Nat) (safe : Bool) (keep : Bool)
  /-- `AddTimer(dtn, func, safe)`; `keep` as above -/
  | addDuration (dtn : TimerNs) (func : Nat) (safe : Bool) (keep : Bool)
  /-- a caller destroys one handle it holds -/
  | release (t : ITimer)
  /-- the locked block of `Stop`: `quit_ = true` -/
  | stop
deriving DecidableEq, Repr

/-- Effect of one operation of another thread on the world. -/
def applyOp (w : World) : Op → World
  | .tick d => { w with now := w.now + (d : Int) }
  | .construct tp safe func =>
    { w with held := { addr := w.next, tp := tp, safe := safe, func := func } :: w.held,
             next := w.next + 1 }
  | .addHandle t =>
    if t ∈ w.held then
      let r := AddTimer_handle w.q w.now (some t)
      { w with q := r.2, log := if r.1 then Event.admitted t w.now :: w.log else w.log }
    else w
  | .addNull => { w with q := (AddTimer_handle w.q w.now none).2 }
  | .addDeadline tp func safe keep =>
    let r := AddTimer_tp w.q w.now w.next tp func safe
    match r.1 with
    | none => { w with q := r.2 }
    | some t =>
      { w with q := r.2,
               held := if keep then t :: w.held else w.held,
               next := w.next + 1,
               log := if (set_find w.q.tq_ (some t)).isSome then w.log
                      else Event.admitted t w.now :: w.log }
  | .addDuration dtn func safe keep =>
    let r := AddTimer_dtn w.q w.now w.next dtn func safe
    match r.1 with
    | none => { w with q := r.2 }
    | some t =>
      { w with q := r.2,
               held := if keep then t :: w.held else w.held,
               next := w.next + 1,
               log := if (set_find w.q.tq_ (some t)).isSome then w.log
                      else Event.admitted t w.now :: w.log }
  | .release t => { w with held := w.held.erase t }
  | .stop => { w with q := { w.q with quit_ := true } }

/-- A sequence of operations of other threads, in the order they take effect. -/
def runOps (w : World) (ops : List Op) : World :=
  ops.foldl applyOp w

/-! ## Dispatcher -/

/-- Return values of `std::condition_variable::wait_until`. -/
inductive cv_status where
  | no_timeout
  | timeout
deriving DecidableEq, Repr

/-- Status `cv_.wait_until(lck, abs_time)` reports when it returns at clock
reading `now`: `timeout` when the absolute time has been reached. -/
def wait_until (now abs_time : TimePoint) : cv_status :=
  if now < abs_time then cv_status.no_timeout else cv_status.timeout

/-- Reference count `shared_ptr::use_count()` of a timer object: the copies in
`tq_`, the copies callers hold, and `locals` copies in local variables of the
dispatcher. -/
def use_count (w : World) (t : ITimer) (locals : Nat) : Nat :=
  w.q.tq_.count (some t) + w.held.count t + locals

/-- What the environment contributes to one call of `ThreadLoop`: the operations
other threads complete while the dispatcher is blocked in `wait`/`wait_until`,
and whether the callback (if it is invoked) throws. -/
structure WaitEnv where
  during : List Op
  throws : Bool
deriving DecidableEq, Repr

/-- Result of one call of `ThreadLoop`: a normal return with its value, or an
exception leaving the function. -/
inductive LoopResult where
  | returned (ret : Bool) (w : World)
  | threw (w : World)
deriving DecidableEq, Repr

/-- The statements `hdl = *it; tq_.erase(it);` for the record `t` the iterator
points to: the record leaves the Pending Set. -/
def World.take (w : World) (t : ITimer) : World :=
  { w with q := { w.q with tq_ := w.q.tq_.erase (some t) },
           log := Event.removed t w.now :: w.log }

/-- The call `hdl->TimerCallback()`, as far as the world records it. -/
def World.call (w : World) (t : ITimer) : World :=
  { w with log := Event.invoked t :: w.log }

/-- Member function `bool TimerQueue::ThreadLoop()`. -/
def ThreadLoop (w : World) (env : WaitEnv) : LoopResult :=
  if w.q.quit_ then
    .returned false { w with q := { w.q with tq_ := [] } }
  else
    match w.q.tq_ with
    | [] => .returned true (runOps w env.during)
    | none :: rest => .returned true { w with q := { w.q with tq_ := rest } }
    | some t :: _ =>
      let w1 := runOps w env.during
      match wait_until w1.now t.tp with
      | .no_timeout => .returned true w1
      | .timeout =>
        let w2 := w1.take t
        if !t.safe || !(use_count w2 t 1 == 1) then
          if env.throws then .threw (w2.call t) else .returned true (w2.call t)
        else .returned true w2

/-- One round of the dispatcher loop as the environment sees it: operations
completed before the dispatcher takes the lock, and the environment of the call. -/
structure Iter where
  before : List Op
  during : List Op
  throws : Bool
deriving DecidableEq, Repr

/-- How a run of the dispatcher thread stands after the given rounds. -/
inductive RunResult where
  /-- every call so far returned `true` -/
  | running (w : World)
  /-- a call returned `false`: the loop and the thread function ended -/
  | exited (w : World)
  /-- an exception left `StartRoutine` -/
  | terminated (w : World)
deriving DecidableEq, Repr

/-- Member function `void TimerQueue::StartRoutine() { while (ThreadLoop()); }`,
run for the rounds given. -/
def StartRoutine (w : World) : List Iter → RunResult
  | [] => .running w
  | i :: rest =>
    match ThreadLoop (runOps w i.before) { during := i.during, throws := i.throws } with
    | .returned true w1 => StartRoutine w1 rest
    | .returned false w1 => .exited w1
    | .threw w1 => .terminated w1

/-- World in which a run result stands. -/
def RunResult.world : RunResult → World
  | .running w => w
  | .exited w => w
  | .terminated w => w

/-- A freshly constructed queue at clock reading `t0`. -/
def World.init (t0 : TimePoint) : World :=
  { now := t0, q := { tq_ := [], quit_ := false }, held := [], next := 0, log := [] }

/-- Timers whose callback was invoked, newest first. -/
def invokedTimers (log : List Event) : List ITimer :=
  log.filterMap fun e => match e with
    | .invoked t => some t
    | _ => none

/-- Timers whose callback was invoked, in the order of the invocations. -/
def firedTimers (log : List Event) : List ITimer :=
  (invokedTimers log).reverse

/-! ## Specification vocabulary -/

/-- World of a call result, whichever way the call ended. -/
def LoopResult.world : LoopResult → World
  | .returned _ w => w
  | .threw w => w

/-- Representation invariant of the Pending Set: no null entry, and the
entries stand in strictly ascending comparator order (so no two of them have
the same deadline). -/
def PendingSetInv (tq : List TimerHandle) : Prop :=
  (∀ h ∈ tq, h ≠ none) ∧ tq.Pairwise (fun a b => TimerHandleComp a b = true)

instance (tq : List TimerHandle) : Decidable (PendingSetInv tq) := by
  unfold PendingSetInv; infer_instance

theorem comp_some_some (a b : ITimer) : TimerHandleComp (some a) (some b) = decide (a.tp < b.tp) := rfl

theorem comp_none_left (x : TimerHandle) : TimerHandleComp none x = false := by
  cases x <;> rfl

theorem comp_none_right (x : TimerHandle) : TimerHandleComp x none = false := by
  cases x <;> rfl

/-- Two non-null handles are equivalent exactly when their deadlines are equal. -/
theorem set_equiv_some_some (a b : ITimer) : set_equiv (some a) (some b) = decide (a.tp = b.tp) := by
  simp only [set_equiv, comp_some_some]
  by_cases h : a.tp = b.tp
  · simp [h]
  · rcases lt_or_gt_of_ne h with h1 | h1
    · simp [h1, h]
    · simp [h1, h]

/-- On a set without null entries, `find` succeeds exactly when a record with
the same deadline is present. -/
theorem set_find_isSome_iff (tq : List TimerHandle) (t : ITimer) (hn : ∀ h ∈ tq, h ≠ none) :
    (set_find tq (some t)).isSome = true ↔ ∃ r, some r ∈ tq ∧ r.tp = t.tp := by
  unfold set_find
  rw [List.find?_isSome]
  constructor
  · rintro ⟨x, hx, he⟩
    cases x with
    | none => exact absurd rfl (hn _ hx)
    | some r =>
      rw [set_equiv_some_some] at he
      exact ⟨r, hx, by simpa using he⟩
  · rintro ⟨r, hr, he⟩
    exact ⟨some r, hr, by rw [set_equiv_some_some]; simpa using he⟩

/-- Inserting at the comparator position adds the key and nothing else. -/
theorem set_insert_pos_perm (k : TimerHandle) (tq : List TimerHandle) :
    (set_insert_pos k tq).Perm (k :: tq) := by
  induction tq with
  | nil => exact List.Perm.refl _
  | cons x xs ih =>
    unfold set_insert_pos
    split
    · exact List.Perm.refl _
    · exact (List.Perm.cons x ih).trans (List.Perm.swap k x xs)

/-- Inserting a deadline that is not present keeps the strict ascending order. -/
theorem set_insert_pos_pairwise (t : ITimer) (tq : List TimerHandle)
    (hinv : PendingSetInv tq) (hfresh : ∀ r, some r ∈ tq → r.tp ≠ t.tp) :
    (set_insert_pos (some t) tq).Pairwise (fun a b => TimerHandleComp a b = true) := by
  induction tq with
  | nil => simp [set_insert_pos]
  | cons x xs ih =>
    obtain ⟨hn, hp⟩ := hinv
    rw [List.pairwise_cons] at hp
    have hxs : PendingSetInv xs := ⟨fun h hh => hn h (List.mem_cons_of_mem _ hh), hp.2⟩
    have ih1 := ih hxs (fun r hr => hfresh r (List.mem_cons_of_mem _ hr))
    cases x with
    | none => exact absurd rfl (hn none (List.mem_cons_self _ _))
    | some r =>
      unfold set_insert_pos
      by_cases hc : TimerHandleComp (some t) (some r) = true
      · rw [if_pos hc]
        rw [List.pairwise_cons]
        refine ⟨?_, List.pairwise_cons.mpr hp⟩
        intro y hy
        rcases List.mem_cons.mp hy with rfl | hy
        · exact hc
        · have h1 := hp.1 y hy
          cases y with
          | none => exact absurd rfl (hn none (List.mem_cons_of_mem _ hy))
          | some s =>
            rw [comp_some_some] at hc h1 ⊢
            simp only [decide_eq_true_eq] at hc h1 ⊢
            exact lt_trans hc h1
      · rw [if_neg hc]
        rw [List.pairwise_cons]
        refine ⟨?_, ih1⟩
        intro y hy
        have hy1 := (set_insert_pos_perm (some t) xs).subset hy
        rcases List.mem_cons.mp hy1 with rfl | hy2
        · rw [comp_some_some] at hc ⊢
          simp only [decide_eq_true_eq, not_lt] at hc ⊢
          exact lt_of_le_of_ne hc (hfresh r (List.mem_cons_self _ _))
        · exact hp.1 y hy2

/-- The member function `emplace` keeps the representation invariant. -/
theorem set_emplace_inv (t : ITimer) (tq : List TimerHandle) (hinv : PendingSetInv tq) :
    PendingSetInv (set_emplace tq (some t)) := by
  unfold set_emplace
  split
  · exact hinv
  · rename_i h
    rw [set_find_isSome_iff tq t hinv.1] at h
    refine ⟨?_, set_insert_pos_pairwise t tq hinv ?_⟩
    · intro x hx
      rcases List.mem_cons.mp ((set_insert_pos_perm (some t) tq).subset hx) with rfl | hx
      · simp
      · exact hinv.1 x hx
    · intro r hr he
      exact h ⟨r, hr, he⟩

/-! ## Deadline Ordering -/

/-- C9 (amended): `TimerHandleComp` is irreflexive, asymmetric and transitive on
all handles, null included; on non-null handles its incomparability relation is
exactly "same deadline" and is transitive, so there it is a strict weak
ordering; a null handle is never less than anything, and nothing is less than a
null handle either, so null is incomparable to every handle. -/
theorem TimerHandleComp_strict_weak_on_nonnull :
    (∀ a : TimerHandle, TimerHandleComp a a = false) ∧
    (∀ a b : TimerHandle, TimerHandleComp a b = true → TimerHandleComp b a = false) ∧
    (∀ a b c : TimerHandle, TimerHandleComp a b = true → TimerHandleComp b c = true →
      TimerHandleComp a c = true) ∧
    (∀ a b : ITimer, set_equiv (some a) (some b) = true ↔ a.tp = b.tp) ∧
    (∀ a b c : ITimer, set_equiv (some a) (some b) = true → set_equiv (some b) (some c) = true →
      set_equiv (some a) (some c) = true) ∧
    (∀ x : TimerHandle, TimerHandleComp none x = false ∧ TimerHandleComp x none = false ∧
      set_equiv none x = true) := by
  refine ⟨?_, ?_, ?_, ?_, ?_, ?_⟩
  · intro a
    cases a with
    | none => rfl
    | some a => simp [comp_some_some]
  · intro a b h
    cases a with
    | none => rw [comp_none_left] at h; cases h
    | some a =>
      cases b with
      | none => rfl
      | some b =>
        rw [comp_some_some] at h ⊢
        simp only [decide_eq_true_eq] at h
        simp only [decide_eq_false_iff_not, not_lt]
        exact le_of_lt h
  · intro a b c h1 h2
    cases a with
    | none => rw [comp_none_left] at h1; cases h1
    | some a =>
      cases b with
      | none => rw [comp_none_right] at h1; cases h1
      | some b =>
        cases c with
        | none => rw [comp_none_right] at h2; cases h2
        | some c =>
          rw [comp_some_some] at h1 h2 ⊢
          simp only [decide_eq_true_eq] at h1 h2 ⊢
          exact lt_trans h1 h2
  · intro a b
    rw [set_equiv_some_some]
    simp
  · intro a b c h1 h2
    rw [set_equiv_some_some] at h1 h2 ⊢
    simp only [decide_eq_true_eq] at h1 h2 ⊢
    exact h1.trans h2
  · intro x
    refine ⟨comp_none_left x, comp_none_right x, ?_⟩
    simp [set_equiv, comp_none_left, comp_none_right]

/-- Witness for C9 (amended): a timer due at 1 is less than one due at 2, not
the other way round, and two timers due at 1 are equivalent. -/
theorem TimerHandleComp_strict_weak_on_nonnull_witness :
    TimerHandleComp (some ⟨1, 2, true, 0⟩) (some ⟨0, 1, true, 0⟩) = false ∧
    set_equiv (some ⟨0, 1, true, 0⟩) (some ⟨1, 1, false, 3⟩) = true :=
  ⟨TimerHandleComp_strict_weak_on_nonnull.2.1 (some ⟨0, 1, true, 0⟩) (some ⟨1, 2, true, 0⟩)
      (by decide),
   (TimerHandleComp_strict_weak_on_nonnull.2.2.2.1 ⟨0, 1, true, 0⟩ ⟨1, 1, false, 3⟩).mpr
      (by decide)⟩

/-- C9 (counterexample): with a null handle in play incomparability is not
transitive, so the comparator is not a strict weak ordering over all handles:
the timer due at 1 and the timer due at 2 are both incomparable to null, yet
the first is less than the second. -/
theorem TimerHandleComp_null_breaks_weak_order :
    set_equiv (some ⟨0, 1, true, 0⟩) none = true ∧
    set_equiv none (some ⟨1, 2, true, 0⟩) = true ∧
    set_equiv (some ⟨0, 1, true, 0⟩) (some ⟨1, 2, true, 0⟩) = false ∧
    TimerHandleComp (some ⟨0, 1, true, 0⟩) (some ⟨1, 2, true, 0⟩) = true := by
  decide

/-! ## Registration API -/

/-- C4: on a Pending Set that satisfies its representation invariant,
`AddTimer(handle)` returns false exactly when the handle is null, or its
deadline is strictly before `now`, or a record with an equal deadline is
pending; on false the queue is unchanged; on true the Pending Set is the old
one plus exactly that handle (and is again a well-formed set). -/
theorem AddTimer_handle_result (q : TimerQueue) (now : TimePoint) (handle : TimerHandle)
    (hinv : PendingSetInv q.tq_) :
    ((AddTimer_handle q now handle).1 = false ↔
      (handle = none ∨
        ∃ t, handle = some t ∧ (t.tp < now ∨ ∃ r, some r ∈ q.tq_ ∧ r.tp = t.tp))) ∧
    ((AddTimer_handle q now handle).1 = false → (AddTimer_handle q now handle).2 = q) ∧
    ((AddTimer_handle q now handle).1 = true →
      (AddTimer_handle q now handle).2.tq_.Perm (handle :: q.tq_) ∧
      PendingSetInv (AddTimer_handle q now handle).2.tq_ ∧
      (AddTimer_handle q now handle).2.quit_ = q.quit_) := by
  cases handle with
  | none => simp [AddTimer_handle]
  | some t =>
    have hf := set_find_isSome_iff q.tq_ t hinv.1
    by_cases h1 : t.tp < now
    · simp [AddTimer_handle, h1]
    · by_cases h2 : (set_find q.tq_ (some t)).isSome = true
      · have h3 := hf.mp h2
        simp only [AddTimer_handle, h1, h2, if_false, if_true]
        refine ⟨?_, ?_, ?_⟩
        · simp only [true_iff]
          exact Or.inr ⟨t, rfl, Or.inr h3⟩
        · intro _; trivial
        · intro h; cases h
      · have h3 : ¬ ∃ r, some r ∈ q.tq_ ∧ r.tp = t.tp := fun h => h2 (hf.mpr h)
        simp only [AddTimer_handle, h1, h2, if_false]
        refine ⟨?_, ?_, ?_⟩
        · constructor
          · intro h; cases h
          · rintro (h | ⟨t1, ht1, h | h⟩)
            · cases h
            · cases ht1; exact absurd h h1
            · cases ht1; exact absurd h h3
        · intro h; cases h
        · intro _
          refine ⟨?_, set_emplace_inv t q.tq_ hinv, rfl⟩
          show (set_emplace q.tq_ (some t)).Perm (some t :: q.tq_)
          unfold set_emplace
          rw [if_neg h2]
          exact set_insert_pos_perm _ _

/-- Witness for C4: registering a handle due at 20 at clock 0 into a set that
holds a timer due at 10 succeeds. -/
theorem AddTimer_handle_result_witness :
    (AddTimer_handle ⟨[some ⟨0, 10, true, 0⟩], false⟩ 0 (some ⟨1, 20, true, 0⟩)).2.tq_.Perm
        [some ⟨1, 20, true, 0⟩, some ⟨0, 10, true, 0⟩] ∧
    PendingSetInv (AddTimer_handle ⟨[some ⟨0, 10, true, 0⟩], false⟩ 0
        (some ⟨1, 20, true, 0⟩)).2.tq_ ∧
    (AddTimer_handle ⟨[some ⟨0, 10, true, 0⟩], false⟩ 0 (some ⟨1, 20, true, 0⟩)).2.quit_ = false :=
  (AddTimer_handle_result ⟨[some ⟨0, 10, true, 0⟩], false⟩ 0 (some ⟨1, 20, true, 0⟩)
    (by decide)).2.2 (by decide)

/-- C5: `AddTimer(tp, func, safe)` returns a null handle exactly when `tp` is
strictly before `now`; in that case the queue is unchanged, and so is the whole
world (no object is created, nothing is logged), so every later run of the
dispatcher is the run it would have been without the call. -/
theorem AddTimer_tp_rejects_past (q : TimerQueue) (now : TimePoint) (addr : Nat)
    (tp : TimePoint) (func : Nat) (safe : Bool) :
    ((AddTimer_tp q now addr tp func safe).1 = none ↔ tp < now) ∧
    (tp < now → (AddTimer_tp q now addr tp func safe).2 = q) ∧
    (∀ (w : World) (keep : Bool), tp < w.now →
      applyOp w (Op.addDeadline tp func safe keep) = w) ∧
    (∀ (w : World) (keep : Bool) (rounds : List Iter), tp < w.now →
      StartRoutine (applyOp w (Op.addDeadline tp func safe keep)) rounds =
        StartRoutine w rounds) := by
  have hw : ∀ (w : World) (keep : Bool), tp < w.now →
      applyOp w (Op.addDeadline tp func safe keep) = w := by
    intro w keep h
    simp [applyOp, AddTimer_tp, h]
  refine ⟨?_, ?_, hw, ?_⟩
  · by_cases h : tp < now <;> simp [AddTimer_tp, h]
  · intro h
    simp [AddTimer_tp, h]
  · intro w keep rounds h
    rw [hw w keep h]

/-- Witness for C5: at clock 5 a deadline of 3 is rejected and the queue is
left as it was. -/
theorem AddTimer_tp_rejects_past_witness :
    (AddTimer_tp ⟨[some ⟨0, 10, true, 0⟩], false⟩ 5 1 3 0 true).1 = none ∧
    (AddTimer_tp ⟨[some ⟨0, 10, true, 0⟩], false⟩ 5 1 3 0 true).2 =
      ⟨[some ⟨0, 10, true, 0⟩], false⟩ :=
  ⟨(AddTimer_tp_rejects_past ⟨[some ⟨0, 10, true, 0⟩], false⟩ 5 1 3 0 true).1.mpr (by decide),
   (AddTimer_tp_rejects_past ⟨[some ⟨0, 10, true, 0⟩], false⟩ 5 1 3 0 true).2.1 (by decide)⟩

/-- C6 (the code at the failing input): with a timer due at 10 pending,
`AddTimer(tp = 10, func, safe)` at clock 0 returns a non-null handle, and the
Pending Set is left as it was: the new timer is not pending. -/
theorem AddTimer_tp_equal_deadline_returns_handle :
    AddTimer_tp ⟨[some ⟨0, 10, true, 0⟩], false⟩ 0 1 10 7 true =
      (some ⟨1, 10, true, 7⟩, ⟨[some ⟨0, 10, true, 0⟩], false⟩) := by
  decide

/-- C7 (the code at the failing input): with a timer due at 10 pending,
`AddTimer(dtn = 6, func, safe)` at clock 4 returns a non-null handle to a timer
due at 10, leaves the Pending Set as it was, and the new timer is not a member
of it.  In a run, of two `safe = false` timers registered by the same duration
at the same clock reading only the first is ever invoked, although two further
rounds were available. -/
theorem AddTimer_dtn_equal_deadline_not_member :
    AddTimer_dtn ⟨[some ⟨0, 10, true, 0⟩], false⟩ 4 1 6 7 true =
      (some ⟨1, 10, true, 7⟩, ⟨[some ⟨0, 10, true, 0⟩], false⟩) ∧
    some ⟨1, 10, true, 7⟩ ∉
      (AddTimer_dtn ⟨[some ⟨0, 10, true, 0⟩], false⟩ 4 1 6 7 true).2.tq_ ∧
    firedTimers (StartRoutine (World.init 0)
      [{ before := [Op.addDuration 10 0 false true, Op.addDuration 10 1 false true],
         during := [Op.tick 10], throws := false },
       { before := [], during := [Op.tick 10], throws := false },
       { before := [], during := [Op.tick 10], throws := false }]).world.log =
      [⟨0, 10, false, 0⟩] := by
  decide

/-- The parts of the by-duration registration that hold on every input: the
handle returned is never null and points to a record due at the 64-bit sum
`now + dtn` with the given safe flag; on a well-formed Pending Set without a
record of that deadline, the Pending Set afterwards is the old one plus exactly
that record. -/
theorem AddTimer_dtn_admits_fresh_deadline (q : TimerQueue) (now : TimePoint) (addr : Nat)
    (dtn : TimerNs) (func : Nat) (safe : Bool) :
    (∃ t, (AddTimer_dtn q now addr dtn func safe).1 = some t ∧
      t.tp = wrap64 (now + dtn) ∧ t.safe = safe) ∧
    (PendingSetInv q.tq_ → (∀ r, some r ∈ q.tq_ → r.tp ≠ wrap64 (now + dtn)) →
      (AddTimer_dtn q now addr dtn func safe).2.tq_.Perm
        ((AddTimer_dtn q now addr dtn func safe).1 :: q.tq_) ∧
      PendingSetInv (AddTimer_dtn q now addr dtn func safe).2.tq_) := by
  refine ⟨⟨Timer_dtn addr now dtn func safe, rfl, rfl, rfl⟩, ?_⟩
  intro hinv hfresh
  have hf := set_find_isSome_iff q.tq_ (Timer_dtn addr now dtn func safe) hinv.1
  have h2 : ¬ (set_find q.tq_ (some (Timer_dtn addr now dtn func safe))).isSome = true := by
    intro h
    obtain ⟨r, hr, he⟩ := hf.mp h
    exact hfresh r hr he
  refine ⟨?_, set_emplace_inv _ _ hinv⟩
  show (set_emplace q.tq_ (some (Timer_dtn addr now dtn func safe))).Perm
    (some (Timer_dtn addr now dtn func safe) :: q.tq_)
  unfold set_emplace
  rw [if_neg h2]
  exact set_insert_pos_perm _ _

/-! ## Lemmas on operations and the dispatcher -/

theorem PendingSetInv.nodup {tq : List TimerHandle} (h : PendingSetInv tq) : tq.Nodup := by
  refine List.Pairwise.imp ?_ h.2
  intro a b hab he
  subst he
  cases a with
  | none => rw [comp_none_left] at hab; cases hab
  | some a => simp [comp_some_some] at hab

theorem PendingSetInv.erase {tq : List TimerHandle} (h : PendingSetInv tq) (x : TimerHandle) :
    PendingSetInv (tq.erase x) :=
  ⟨fun y hy => h.1 y (List.mem_of_mem_erase hy), h.2.sublist (List.erase_sublist x tq)⟩

theorem PendingSetInv.count_erase {tq : List TimerHandle} (h : PendingSetInv tq)
    (x : TimerHandle) : (tq.erase x).count x = 0 := by
  apply List.count_eq_zero_of_not_mem
  intro hx
  exact ((h.nodup.mem_erase_iff).mp hx).1 rfl

theorem AddTimer_handle_inv (q : TimerQueue) (now : TimePoint) (handle : TimerHandle)
    (h : PendingSetInv q.tq_) : PendingSetInv (AddTimer_handle q now handle).2.tq_ := by
  unfold AddTimer_handle
  split
  · exact h
  · split
    · exact h
    · split
      · exact h
      · exact set_emplace_inv _ _ h

theorem AddTimer_tp_inv (q : TimerQueue) (now : TimePoint) (addr : Nat) (tp : TimePoint)
    (func : Nat) (safe : Bool) (h : PendingSetInv q.tq_) :
    PendingSetInv (AddTimer_tp q now addr tp func safe).2.tq_ := by
  unfold AddTimer_tp
  split
  · exact h
  · exact set_emplace_inv _ _ h

theorem AddTimer_dtn_inv (q : TimerQueue) (now : TimePoint) (addr : Nat) (dtn : TimerNs)
    (func : Nat) (safe : Bool) (h : PendingSetInv q.tq_) :
    PendingSetInv (AddTimer_dtn q now addr dtn func safe).2.tq_ :=
  set_emplace_inv _ _ h

/-- Every operation keeps the Pending Set well formed. -/
theorem applyOp_inv (w : World) (op : Op) (h : PendingSetInv w.q.tq_) :
    PendingSetInv (applyOp w op).q.tq_ := by
  cases op with
  | tick d => exact h
  | construct tp safe func => exact h
  | addHandle t =>
    simp only [applyOp]
    split
    · exact AddTimer_handle_inv _ _ _ h
    · exact h
  | addNull => exact h
  | addDeadline tp func safe keep =>
    have h1 := AddTimer_tp_inv w.q w.now w.next tp func safe h
    simp only [applyOp]
    split <;> exact h1
  | addDuration dtn func safe keep =>
    have h1 := AddTimer_dtn_inv w.q w.now w.next dtn func safe h
    simp only [applyOp]
    split <;> exact h1
  | release t => exact h
  | stop => exact h

theorem runOps_inv (ops : List Op) (w : World) (h : PendingSetInv w.q.tq_) :
    PendingSetInv (runOps w ops).q.tq_ := by
  induction ops generalizing w with
  | nil => exact h
  | cons op ops ih => exact ih (applyOp w op) (applyOp_inv w op h)

/-- The call of `ThreadLoop` in its timed-out branch, unfolded. -/
theorem ThreadLoop_timeout (w : World) (env : WaitEnv) (t : ITimer) (rest : List TimerHandle)
    (hq : w.q.quit_ = false) (hb : w.q.tq_ = some t :: rest)
    (hto : wait_until (runOps w env.during).now t.tp = cv_status.timeout) :
    ThreadLoop w env =
      if (!t.safe || !(use_count ((runOps w env.during).take t) t 1 == 1)) = true then
        (if env.throws = true then LoopResult.threw (((runOps w env.during).take t).call t)
         else LoopResult.returned true (((runOps w env.during).take t).call t))
      else LoopResult.returned true ((runOps w env.during).take t) := by
  unfold ThreadLoop
  simp only [hq, hb, hto]
  rfl

/-! ## Dispatcher: one call of `ThreadLoop` -/

/-- C1: in a call of `ThreadLoop` that finds `quit_` unset and a non-null
earliest record `t`, and whose `wait_until` ends in `timeout`, the record is
removed from the Pending Set, and its callback is invoked in that call if and
only if `t.safe` is false or the dispatcher's local handle is not the sole
reference to it (`use_count` with the one local copy is not 1).  In
particular, on a well-formed Pending Set, when no caller holds a handle to `t`
the callback is skipped for `safe = true` and invoked for `safe = false`. -/
theorem ThreadLoop_firing_decision (w : World) (env : WaitEnv) (t : ITimer)
    (rest : List TimerHandle) (hq : w.q.quit_ = false) (hb : w.q.tq_ = some t :: rest)
    (hto : wait_until (runOps w env.during).now t.tp = cv_status.timeout) :
    (ThreadLoop w env).world.q.tq_ = (runOps w env.during).q.tq_.erase (some t) ∧
    ((ThreadLoop w env).world.log = (((runOps w env.during).take t).call t).log ↔
      (t.safe = false ∨ use_count ((runOps w env.during).take t) t 1 ≠ 1)) ∧
    (¬ (t.safe = false ∨ use_count ((runOps w env.during).take t) t 1 ≠ 1) →
      (ThreadLoop w env).world.log = ((runOps w env.during).take t).log) ∧
    (PendingSetInv w.q.tq_ → t ∉ (runOps w env.during).held →
      (t.safe = true →
        (ThreadLoop w env).world.log = ((runOps w env.during).take t).log) ∧
      (t.safe = false →
        (ThreadLoop w env).world.log = (((runOps w env.during).take t).call t).log)) := by
  have key := ThreadLoop_timeout w env t rest hq hb hto
  have hcnt : PendingSetInv w.q.tq_ → t ∉ (runOps w env.during).held →
      use_count ((runOps w env.during).take t) t 1 = 1 := by
    intro hinv hheld
    show ((runOps w env.during).q.tq_.erase (some t)).count (some t) +
        (runOps w env.during).held.count t + 1 = 1
    rw [(runOps_inv env.during w hinv).count_erase, List.count_eq_zero_of_not_mem hheld]
  have hne : (((runOps w env.during).take t).call t).log ≠ ((runOps w env.during).take t).log := by
    intro h
    have := congrArg List.length h
    simp [World.call] at this
  by_cases hf : (t.safe = false ∨ use_count ((runOps w env.during).take t) t 1 ≠ 1)
  · have hc : (!t.safe || !(use_count ((runOps w env.during).take t) t 1 == 1)) = true := by
      rcases hf with h | h
      · simp [h]
      · simp [h]
    rw [if_pos hc] at key
    have hw : (ThreadLoop w env).world = ((runOps w env.during).take t).call t := by
      rw [key]; cases env.throws <;> rfl
    rw [hw]
    refine ⟨rfl, ⟨fun _ => hf, fun _ => rfl⟩, fun h => absurd hf h, ?_⟩
    intro hinv hheld
    refine ⟨fun hs => ?_, fun _ => rfl⟩
    rcases hf with h | h
    · rw [hs] at h; cases h
    · exact absurd (hcnt hinv hheld) h
  · have hc : ¬ (!t.safe || !(use_count ((runOps w env.during).take t) t 1 == 1)) = true := by
      intro h
      apply hf
      simp only [Bool.or_eq_true, Bool.not_eq_true', beq_eq_false_iff_ne] at h
      exact h
    rw [if_neg hc] at key
    have hw : (ThreadLoop w env).world = (runOps w env.during).take t := by
      rw [key]; rfl
    rw [hw]
    refine ⟨rfl, ⟨fun h => absurd h.symm hne, fun h => absurd h hf⟩, fun _ => rfl, ?_⟩
    intro _ _
    refine ⟨fun _ => rfl, fun hs => absurd (Or.inl hs) hf⟩

/-- Witness for C1: a `safe = true` timer due at 5 whose handle no caller
holds is removed at clock 5 without its callback being invoked. -/
theorem ThreadLoop_firing_decision_witness :
    (ThreadLoop ⟨5, ⟨[some ⟨0, 5, true, 0⟩], false⟩, [], 1, []⟩ ⟨[], false⟩).world.log =
      ((runOps ⟨5, ⟨[some ⟨0, 5, true, 0⟩], false⟩, [], 1, []⟩ []).take ⟨0, 5, true, 0⟩).log :=
  ((ThreadLoop_firing_decision ⟨5, ⟨[some ⟨0, 5, true, 0⟩], false⟩, [], 1, []⟩ ⟨[], false⟩
    ⟨0, 5, true, 0⟩ [] rfl rfl (by decide)).2.2.2 (by decide) (by decide)).1 rfl

/-- C8: a call of `ThreadLoop` that finds `quit_` set clears the Pending Set,
invokes no callback (the log is unchanged) and returns false; `StartRoutine`
then ends at that call, whatever rounds would follow, so the log of the whole
run is the log at the moment `quit_` was observed: no record pending at that
moment has its callback invoked afterwards. -/
theorem ThreadLoop_quit_discards (w : World) (env : WaitEnv) (hq : w.q.quit_ = true) :
    ThreadLoop w env = LoopResult.returned false { w with q := { w.q with tq_ := [] } } ∧
    (ThreadLoop w env).world.q.tq_ = [] ∧
    (ThreadLoop w env).world.log = w.log ∧
    (∀ (w0 : World) (i : Iter) (rest : List Iter), runOps w0 i.before = w →
      StartRoutine w0 (i :: rest) = RunResult.exited { w with q := { w.q with tq_ := [] } } ∧
      (StartRoutine w0 (i :: rest)).world.log = w.log) := by
  have h : ∀ e : WaitEnv,
      ThreadLoop w e = LoopResult.returned false { w with q := { w.q with tq_ := [] } } := by
    intro e
    unfold ThreadLoop
    rw [if_pos hq]
  refine ⟨h env, ?_, ?_, ?_⟩
  · rw [h env]; rfl
  · rw [h env]; rfl
  · intro w0 i rest hw
    have h1 : StartRoutine w0 (i :: rest) =
        RunResult.exited { w with q := { w.q with tq_ := [] } } := by
      unfold StartRoutine
      rw [hw, h]
    exact ⟨h1, by rw [h1]; rfl⟩

/-- Witness for C8: three timers registered, then `Stop` before any deadline:
the dispatcher exits with an empty Pending Set and no callback invoked. -/
theorem ThreadLoop_quit_discards_witness :
    ThreadLoop ⟨0, ⟨[some ⟨0, 1, false, 0⟩, some ⟨1, 2, false, 1⟩, some ⟨2, 3, false, 2⟩], true⟩,
        [], 3, []⟩ ⟨[Op.tick 5], false⟩ =
      LoopResult.returned false ⟨0, ⟨[], true⟩, [], 3, []⟩ :=
  (ThreadLoop_quit_discards
    ⟨0, ⟨[some ⟨0, 1, false, 0⟩, some ⟨1, 2, false, 1⟩, some ⟨2, 3, false, 2⟩], true⟩, [], 3, []⟩
    ⟨[Op.tick 5], false⟩ rfl).1

/-- C10 (counterexample): two `safe = false` timers due at 5 and 6 are
registered; the callback of the first throws.  The exception leaves
`ThreadLoop` and `StartRoutine`: the run is terminated, and the timer due at 6
is still pending, never served, although a further round was available. -/
theorem StartRoutine_callback_fault_terminates :
    ThreadLoop ⟨5, ⟨[some ⟨0, 5, false, 0⟩, some ⟨1, 6, false, 1⟩], false⟩, [], 2, []⟩
        ⟨[], true⟩ =
      LoopResult.threw ⟨5, ⟨[some ⟨1, 6, false, 1⟩], false⟩, [], 2,
        [Event.invoked ⟨0, 5, false, 0⟩, Event.removed ⟨0, 5, false, 0⟩ 5]⟩ ∧
    StartRoutine (World.init 0)
        [{ before := [Op.addDuration 5 0 false false, Op.addDuration 6 1 false false],
           during := [Op.tick 5], throws := true },
         { before := [], during := [Op.tick 5], throws := false }] =
      RunResult.terminated ⟨5, ⟨[some ⟨1, 6, false, 1⟩], false⟩, [], 2,
        [Event.invoked ⟨0, 5, false, 0⟩, Event.removed ⟨0, 5, false, 0⟩ 5,
         Event.admitted ⟨1, 6, false, 1⟩ 0, Event.admitted ⟨0, 5, false, 0⟩ 0]⟩ := by
  decide

/-- C10 (amended): in a call of `ThreadLoop` that finds `quit_` unset, the call
never returns false; an exception leaves the call exactly when a callback is
invoked (timed-out wait on a non-null earliest record that passes the firing
decision) and that callback throws; in every other case the call returns true.
An exception that leaves `ThreadLoop` leaves `StartRoutine` as well: the run is
terminated there and no later round is served. -/
theorem ThreadLoop_callback_fault_propagates (w : World) (env : WaitEnv)
    (hq : w.q.quit_ = false) :
    (∀ w1, ThreadLoop w env ≠ LoopResult.returned false w1) ∧
    ((∃ w1, ThreadLoop w env = LoopResult.threw w1) ↔
      (env.throws = true ∧ ∃ t rest, w.q.tq_ = some t :: rest ∧
        wait_until (runOps w env.during).now t.tp = cv_status.timeout ∧
        (t.safe = false ∨ use_count ((runOps w env.during).take t) t 1 ≠ 1))) ∧
    ((¬ ∃ w1, ThreadLoop w env = LoopResult.threw w1) →
      ∃ w1, ThreadLoop w env = LoopResult.returned true w1) ∧
    (∀ (w0 : World) (i : Iter) (rest : List Iter) (w1 : World),
      runOps w0 i.before = w →
      ThreadLoop w { during := i.during, throws := i.throws } = LoopResult.threw w1 →
      StartRoutine w0 (i :: rest) = RunResult.terminated w1) := by
  have hcases : (∃ w1, ThreadLoop w env = LoopResult.returned true w1) ∨
      ((∃ w1, ThreadLoop w env = LoopResult.threw w1) ∧
        (env.throws = true ∧ ∃ t rest, w.q.tq_ = some t :: rest ∧
          wait_until (runOps w env.during).now t.tp = cv_status.timeout ∧
          (t.safe = false ∨ use_count ((runOps w env.during).take t) t 1 ≠ 1))) := by
    cases hb : w.q.tq_ with
    | nil =>
      left
      exact ⟨_, by unfold ThreadLoop; simp only [hq, hb]; rfl⟩
    | cons x rest =>
      cases x with
      | none =>
        left
        exact ⟨_, by unfold ThreadLoop; simp only [hq, hb]; rfl⟩
      | some t =>
        cases hto : wait_until (runOps w env.during).now t.tp with
        | no_timeout =>
          left
          exact ⟨_, by unfold ThreadLoop; simp only [hq, hb, hto]; rfl⟩
        | timeout =>
          have key := ThreadLoop_timeout w env t rest hq hb hto
          by_cases hc : (!t.safe || !(use_count ((runOps w env.during).take t) t 1 == 1)) = true
          · rw [if_pos hc] at key
            by_cases hth : env.throws = true
            · rw [if_pos hth] at key
              right
              refine ⟨⟨_, key⟩, hth, t, rest, rfl, hto, ?_⟩
              simp only [Bool.or_eq_true, Bool.not_eq_true', beq_eq_false_iff_ne] at hc
              exact hc
            · rw [if_neg hth] at key
              exact Or.inl ⟨_, key⟩
          · rw [if_neg hc] at key
            exact Or.inl ⟨_, key⟩
  refine ⟨?_, ?_, ?_, ?_⟩
  · intro w1 h
    rcases hcases with ⟨w2, h2⟩ | ⟨⟨w2, h2⟩, _⟩
    · rw [h2] at h; cases h
    · rw [h2] at h; cases h
  · constructor
    · rintro ⟨w1, h⟩
      rcases hcases with ⟨w2, h2⟩ | ⟨_, h3⟩
      · rw [h2] at h; cases h
      · exact h3
    · rintro ⟨hth, t, rest, hb, hto, hf⟩
      have key := ThreadLoop_timeout w env t rest hq hb hto
      have hc : (!t.safe || !(use_count ((runOps w env.during).take t) t 1 == 1)) = true := by
        rcases hf with h | h
        · simp [h]
        · simp [h]
      rw [if_pos hc, if_pos hth] at key
      exact ⟨_, key⟩
  · intro hn
    rcases hcases with h | ⟨h, _⟩
    · exact h
    · exact absurd h hn
  · intro w0 i rest w1 hw h
    unfold StartRoutine
    rw [hw, h]

/-- Witness for C10 (amended): with `quit_` unset and an empty Pending Set the
call returns (true), it does not end by an exception. -/
theorem ThreadLoop_callback_fault_propagates_witness :
    ∃ w1, ThreadLoop (World.init 0) ⟨[], true⟩ = LoopResult.returned true w1 :=
  (ThreadLoop_callback_fault_propagates (World.init 0) ⟨[], true⟩ rfl).2.2.1
    (by rintro ⟨w1, h⟩; cases h)

/-! ## Lemmas on runs -/

theorem invokedTimers_cons_removed (log : List Event) (t : ITimer) (c : TimePoint) :
    invokedTimers (Event.removed t c :: log) = invokedTimers log := rfl

theorem invokedTimers_cons_invoked (log : List Event) (t : ITimer) :
    invokedTimers (Event.invoked t :: log) = t :: invokedTimers log := rfl

/-- A second way out of order, without a negative duration: the dispatcher
waits on the timer due at 10; at clock 9 another thread registers a timer due
at 9; the wait returns at clock 10 with `timeout`, and the record the iterator
still points to, due at 10, is removed and invoked before the one due at 9. -/
theorem StartRoutine_late_registration_out_of_order :
    (firedTimers (StartRoutine (World.init 0)
      [{ before := [Op.addDeadline 10 0 false false],
         during := [Op.tick 9, Op.addDeadline 9 1 false false, Op.tick 1], throws := false },
       { before := [], during := [], throws := false }]
      ).world.log).map ITimer.tp = [10, 9] := by
  decide

/-- A third way out of order: at clock 10, after the timer due at 10 was
invoked, a timer is registered by a duration so large that the 64-bit sum with
the clock wraps to a deadline far in the past; it is invoked next. -/
theorem StartRoutine_overflowing_duration_out_of_order :
    (firedTimers (StartRoutine (World.init 0)
      [{ before := [Op.addDuration 10 0 false false], during := [Op.tick 10], throws := false },
       { before := [Op.addDuration 9223372036854775803 1 false false], during := [],
         throws := false }]
      ).world.log).map ITimer.tp = [10, -9223372036854775803] := by
  decide

end utils
